import Mathlib

set_option maxRecDepth 4000

/-!
Verification of the FlowBuds message-bus (src/main.py) against its
natural-language specification.

Shallow embedding notes:
* `MessageType` is the Python `Enum` with its five members; `.value` carries
  the display label exactly as in the source.
* Python callers may pass any object where a `MessageType` is expected, so
  dictionary keys and `Message.msg_type` are modelled by `PyKey`, which embeds
  the enum members (`PyKey.ofType`) alongside arbitrary non-member values
  (`PyKey.other`).
* The `self.subscribers` dict is an insertion-ordered association list, as a
  Python dict is; `dictGet?` is `d[k]` (with `KeyError` as `none`),
  `dictGetD` is `d.get(k, default)`, `dictSet` is item assignment.
* A `queue.Queue` held by the bus is identified by a `MailboxId`; the heap of
  queue contents is the `boxes` field (front of the list = oldest element, so
  `Queue.put` appends and `Queue.get` takes the head).
* `subscribe`/`unsubscribe` can raise `KeyError` on a non-member key
  (`self.subscribers[msg_type]`), so they return `Except`; `publish` uses
  `self.subscribers.get(message.msg_type, [])` and is total, and `get_stats`
  is a pure read.
-/

/-- The `MessageType` enum of src/main.py. -/
inductive MessageType where
  | ORDER
  | PAYMENT
  | INVENTORY
  | SHIPPING
  | NOTIFICATION
deriving DecidableEq, Repr

/-- The `.value` of each enum member, exactly the labels in the source. -/
def MessageType.value : MessageType → String
  | .ORDER => "订单"
  | .PAYMENT => "支付"
  | .INVENTORY => "库存"
  | .SHIPPING => "物流"
  | .NOTIFICATION => "通知"

/-- Iteration order of `for msg_type in MessageType`: definition order. -/
def MessageType.all : List MessageType :=
  [.ORDER, .PAYMENT, .INVENTORY, .SHIPPING, .NOTIFICATION]

/-- A Python value passed where a `MessageType` is expected: either a member
of the enum or some other object (indexed by a natural number). -/
inductive PyKey where
  | ofType (t : MessageType)
  | other (n : Nat)
deriving DecidableEq, Repr

/-- Identity of a `queue.Queue` object handed to the bus at subscribe time. -/
abbrev MailboxId := Nat

/-- The `Message` object: `msg_type`, `content`, `sender`, and the
`time.time()` timestamp taken at construction (supplied explicitly here;
the source uses it only for display). -/
structure Message where
  msg_type : PyKey
  content : String
  sender : String
  timestamp : Nat
deriving DecidableEq, Repr

/-- `KeyError`, raised by `self.subscribers[msg_type]` on a missing key. -/
inductive PyError where
  | keyError
deriving DecidableEq, Repr

/-- Dict lookup `d[k]` on an insertion-ordered association list:
first binding wins (a Python dict has at most one binding per key). -/
def dictGet? {α β : Type} [DecidableEq α] : List (α × β) → α → Option β
  | [], _ => none
  | (k, v) :: rest, k' => if k' = k then some v else dictGet? rest k'

/-- Dict item assignment `d[k] = v`: replaces the binding in place when the
key is present, appends a new binding otherwise (Python dict semantics). -/
def dictSet {α β : Type} [DecidableEq α] : List (α × β) → α → β → List (α × β)
  | [], k, v => [(k, v)]
  | (k0, v0) :: rest, k, v =>
      if k = k0 then (k0, v) :: rest else (k0, v0) :: dictSet rest k v

/-- State of a `MessageBus` object together with the contents of every
`queue.Queue` it may reference (`boxes` is the heap of queue objects;
`message_count` is the bus's published-message counter). -/
structure BusState where
  name : String
  subscribers : List (PyKey × List MailboxId)
  message_count : Nat
  boxes : MailboxId → List Message

/-- `MessageBus.__init__`: empty subscriber list for every enum member, in
enum order; counter zero.  All queues start empty. -/
def initState (name : String) : BusState :=
  { name := name
    subscribers := MessageType.all.map (fun t => (PyKey.ofType t, []))
    message_count := 0
    boxes := fun _ => [] }

/-- `MessageBus.subscribe`: looks up `self.subscribers[msg_type]` (KeyError
if the key is absent), appends the queue unless it is already present. -/
def subscribe (t : PyKey) (mb : MailboxId) (s : BusState) :
    Except PyError BusState :=
  match dictGet? s.subscribers t with
  | none => .error .keyError
  | some l =>
      if mb ∈ l then .ok s
      else .ok { s with subscribers := dictSet s.subscribers t (l ++ [mb]) }

/-- `MessageBus.unsubscribe`: looks up `self.subscribers[msg_type]` (KeyError
if the key is absent), removes the first occurrence of the queue when present
(`list.remove`), no-op otherwise. -/
def unsubscribe (t : PyKey) (mb : MailboxId) (s : BusState) :
    Except PyError BusState :=
  match dictGet? s.subscribers t with
  | none => .error .keyError
  | some l =>
      if mb ∈ l then
        .ok { s with subscribers := dictSet s.subscribers t (l.erase mb) }
      else .ok s

/-- The dispatch loop `for sub_queue in subscribers: sub_queue.put(message)`:
enqueue `m` at the back of each listed queue, in list order. -/
def putAll (l : List MailboxId) (m : Message) (bx : MailboxId → List Message) :
    MailboxId → List Message :=
  match l with
  | [] => bx
  | mb :: rest =>
      putAll rest m (fun k => if k = mb then bx k ++ [m] else bx k)

/-- `MessageBus.publish`: one critical section that increments
`message_count`, snapshots `self.subscribers.get(message.msg_type, [])`, and
enqueues the message into every queue of the snapshot in order.  Total: it
raises nothing even for a `msg_type` outside the enum. -/
def publish (m : Message) (s : BusState) : BusState :=
  let subs := (dictGet? s.subscribers m.msg_type).getD []
  { s with
    message_count := s.message_count + 1
    boxes := putAll subs m s.boxes }

/-- Label used by `get_stats` for a dict key (`msg_type.value`); reachable
registries hold only enum members, where this is exactly `.value` (on any
other object Python would raise `AttributeError`, a case no claim touches). -/
def PyKey.label : PyKey → String
  | .ofType t => t.value
  | .other n => toString n

/-- `MessageBus.get_stats`: builds `{msg_type.value: len(subs)}` iterating the
registry in insertion order.  Pure read of the state. -/
def get_stats (s : BusState) : List (String × Nat) :=
  s.subscribers.map (fun p => (p.1.label, p.2.length))

/-- `queue.Queue.get`: dequeues the oldest element, `none` when empty
(the timeout path of the source ends in `queue.Empty`). -/
def Queue.get? (q : List Message) : Option (Message × List Message) :=
  match q with
  | [] => none
  | x :: xs => some (x, xs)

/-- Repeatedly calling `Queue.get?` until empty: the order in which a
consumer draining its mailbox observes the messages. -/
def drain (q : List Message) : List Message :=
  match h : Queue.get? q with
  | none => []
  | some (m, rest) => m :: drain rest
decreasing_by
  cases q with
  | nil => simp [Queue.get?] at h
  | cons a l =>
      simp [Queue.get?] at h
      simp [← h.2]

/-- The bus operations a caller can perform, for reasoning about operation
sequences.  A raised `KeyError` leaves the Python object unchanged, so
`applyOp` keeps the prior state on error. -/
inductive Op where
  | sub (t : PyKey) (mb : MailboxId)
  | unsub (t : PyKey) (mb : MailboxId)
  | pub (m : Message)
  | stats
deriving DecidableEq, Repr

/-- Whether an operation is an `unsubscribe` call. -/
def Op.isUnsub : Op → Bool
  | .unsub _ _ => true
  | _ => false

/-- Effect of one bus operation on the state (error leaves it unchanged;
`get_stats` mutates nothing). -/
def applyOp (s : BusState) : Op → BusState
  | .sub t mb =>
      match subscribe t mb s with
      | .ok s' => s'
      | .error _ => s
  | .unsub t mb =>
      match unsubscribe t mb s with
      | .ok s' => s'
      | .error _ => s
  | .pub m => publish m s
  | .stats => s

/-- Run a sequence of bus operations. -/
def runOps (s : BusState) (ops : List Op) : BusState :=
  ops.foldl applyOp s

/-- States produced by some operation sequence on a freshly constructed bus. -/
def Reachable (s : BusState) : Prop :=
  ∃ (name : String) (ops : List Op), s = runOps (initState name) ops

/-- Publish a list of messages in order. -/
def publishAll (ms : List Message) (s : BusState) : BusState :=
  ms.foldl (fun st m => publish m st) s

/-- Whether an operation is a `publish` call. -/
def Op.isPub : Op → Bool
  | .pub _ => true
  | _ => false

/-- Number of `publish` calls in an operation sequence. -/
def countPub (ops : List Op) : Nat :=
  ops.countP Op.isPub

/-- The atomic actions inside `MessageBus.publish`, for talking about which
of them the source performs while holding `self.lock`. -/
inductive BusAction where
  | incCount
  | snapshot
  | log
  | enqueue (mb : MailboxId)
deriving DecidableEq, Repr

/-- One step of `publish`: the action and whether `self.lock` is held at that
point in the source. -/
structure Step where
  act : BusAction
  lockHeld : Bool
deriving DecidableEq, Repr

/-- The body of `MessageBus.publish` as a step trace, read off the source:
the `with self.lock:` block covers the counter increment, the registry
snapshot, the two print statements, and the whole enqueue loop. -/
def publishSteps (m : Message) (s : BusState) : List Step :=
  let subs := (dictGet? s.subscribers m.msg_type).getD []
  ⟨.incCount, true⟩ :: ⟨.snapshot, true⟩ :: ⟨.log, true⟩ :: ⟨.log, true⟩ ::
    subs.map (fun mb => ⟨.enqueue mb, true⟩)

/-- Whether a step is an enqueue into some mailbox. -/
def Step.isEnqueue (st : Step) : Bool :=
  match st.act with
  | .enqueue _ => true
  | _ => false

/-- Targets of the enqueue steps of a trace, in order. -/
def enqueueTargets (steps : List Step) : List MailboxId :=
  steps.filterMap (fun st =>
    match st.act with
    | .enqueue mb => some mb
    | _ => none)

/-- The registry's key set never changes after `__init__`: it is exactly the
five enum members, in enum order. -/
def KeysInv (s : BusState) : Prop :=
  s.subscribers.map Prod.fst = MessageType.all.map PyKey.ofType

/-- Every subscriber list in the registry is duplicate-free. -/
def NodupInv (s : BusState) : Prop :=
  ∀ k l, dictGet? s.subscribers k = some l → l.Nodup

/-! ## Concrete states and messages used as witnesses -/

/-- A concrete bus state: mailboxes 0 and 1 subscribed to ORDER. -/
def busW : BusState :=
  { name := "demo"
    subscribers := [(PyKey.ofType .ORDER, [0, 1]), (PyKey.ofType .PAYMENT, []),
      (PyKey.ofType .INVENTORY, []), (PyKey.ofType .SHIPPING, []),
      (PyKey.ofType .NOTIFICATION, [])]
    message_count := 0
    boxes := fun _ => [] }

/-- A concrete ORDER message. -/
def msgW : Message :=
  { msg_type := .ofType .ORDER, content := "o1", sender := "p", timestamp := 0 }

/-- A second concrete ORDER message. -/
def msgW2 : Message :=
  { msg_type := .ofType .ORDER, content := "o2", sender := "p", timestamp := 1 }

/-- A message whose `msg_type` is not a member of the `MessageType` enum. -/
def badMsg : Message :=
  { msg_type := .other 0, content := "x", sender := "y", timestamp := 0 }

/-- The state `busW` after also subscribing mailbox 3 to PAYMENT. -/
def busW3 : BusState :=
  { busW with
    subscribers := dictSet busW.subscribers (.ofType .PAYMENT) [3] }

/-- The state `busW` after unsubscribing mailbox 0 from ORDER. -/
def busW1 : BusState :=
  { busW with
    subscribers := dictSet busW.subscribers (.ofType .ORDER)
      ([0, 1].erase 0) }


/-! ## Dictionary lemmas -/

theorem dictGet?_mem {α β : Type} [DecidableEq α] {d : List (α × β)} {k : α}
    {v : β} (h : dictGet? d k = some v) : (k, v) ∈ d := by
  induction d with
  | nil => simp [dictGet?] at h
  | cons p rest ih =>
      obtain ⟨k0, v0⟩ := p
      by_cases hk : k = k0
      · subst hk
        simp [dictGet?] at h
        simp [h]
      · simp [dictGet?, hk] at h
        exact List.mem_cons_of_mem _ (ih h)

theorem dictGet?_dictSet_self {α β : Type} [DecidableEq α] (d : List (α × β))
    (k : α) (v : β) : dictGet? (dictSet d k v) k = some v := by
  induction d with
  | nil => simp [dictGet?, dictSet]
  | cons p rest ih =>
      obtain ⟨k0, v0⟩ := p
      by_cases hk : k = k0
      · simp [dictGet?, dictSet, hk]
      · simp [dictGet?, dictSet, hk, ih]

theorem dictGet?_dictSet_ne {α β : Type} [DecidableEq α] (d : List (α × β))
    {k k' : α} (v : β) (h : k' ≠ k) :
    dictGet? (dictSet d k v) k' = dictGet? d k' := by
  induction d with
  | nil => simp [dictGet?, dictSet, h]
  | cons p rest ih =>
      obtain ⟨k0, v0⟩ := p
      by_cases hk : k = k0
      · subst hk
        simp [dictGet?, dictSet, h]
      · by_cases hk' : k' = k0
        · simp [dictGet?, dictSet, hk, hk']
        · simp [dictGet?, dictSet, hk, hk', ih]

theorem dictSet_self {α β : Type} [DecidableEq α] {d : List (α × β)} {k : α}
    {v : β} (h : dictGet? d k = some v) : dictSet d k v = d := by
  induction d with
  | nil => simp [dictGet?] at h
  | cons p rest ih =>
      obtain ⟨k0, v0⟩ := p
      by_cases hk : k = k0
      · subst hk
        simp [dictGet?] at h
        simp [dictSet, h]
      · simp [dictGet?, hk] at h
        simp [dictSet, hk, ih h]

theorem map_fst_dictSet {α β : Type} [DecidableEq α] {d : List (α × β)}
    {k : α} {v0 : β} (h : dictGet? d k = some v0) (v : β) :
    (dictSet d k v).map Prod.fst = d.map Prod.fst := by
  induction d with
  | nil => simp [dictGet?] at h
  | cons p rest ih =>
      obtain ⟨k0, v0'⟩ := p
      by_cases hk : k = k0
      · simp [dictSet, hk]
      · simp [dictGet?, hk] at h
        simp [dictSet, hk, ih h]

/-! ## Dispatch-loop and queue lemmas -/

theorem putAll_apply (l : List MailboxId) (m : Message)
    (bx : MailboxId → List Message) (mb : MailboxId) :
    putAll l m bx mb = bx mb ++ List.replicate (l.count mb) m := by
  induction l generalizing bx with
  | nil => simp [putAll]
  | cons a rest ih =>
      rw [putAll]
      have hbeta : putAll rest m (fun k => if k = a then bx k ++ [m] else bx k) mb
          = (if mb = a then bx mb ++ [m] else bx mb) ++
              List.replicate (List.count mb rest) m := ih _
      rw [hbeta]
      by_cases h : mb = a
      · subst h
        rw [if_pos rfl, List.count_cons_self, List.replicate_succ,
          List.append_assoc, List.singleton_append]
      · rw [if_neg h, List.count_cons_of_ne h]

theorem drain_eq (q : List Message) : drain q = q := by
  induction q with
  | nil => rw [drain]; rfl
  | cons x xs ih =>
      rw [drain]
      simp only [Queue.get?]
      rw [ih]

/-! ## Basic facts about `publish` -/

theorem publish_subscribers (m : Message) (s : BusState) :
    (publish m s).subscribers = s.subscribers := rfl

theorem publish_name (m : Message) (s : BusState) :
    (publish m s).name = s.name := rfl

theorem publish_message_count (m : Message) (s : BusState) :
    (publish m s).message_count = s.message_count + 1 := rfl

theorem publish_boxes (m : Message) (s : BusState) (mb : MailboxId) :
    (publish m s).boxes mb =
      s.boxes mb ++
        List.replicate
          (((dictGet? s.subscribers m.msg_type).getD []).count mb) m :=
  putAll_apply _ m s.boxes mb

/-! ## Case analyses for `subscribe` and `unsubscribe` -/

theorem subscribe_ok_cases {t : PyKey} {mb : MailboxId} {s s' : BusState}
    (h : subscribe t mb s = .ok s') :
    ∃ l, dictGet? s.subscribers t = some l ∧
      ((mb ∈ l ∧ s' = s) ∨
        (mb ∉ l ∧
          s' = { s with subscribers := dictSet s.subscribers t (l ++ [mb]) })) := by
  unfold subscribe at h
  cases hget : dictGet? s.subscribers t with
  | none => rw [hget] at h; exact absurd h (by simp)
  | some l =>
      rw [hget] at h
      by_cases hmem : mb ∈ l
      · simp [hmem] at h
        exact ⟨l, rfl, .inl ⟨hmem, h.symm⟩⟩
      · simp [hmem] at h
        exact ⟨l, rfl, .inr ⟨hmem, h.symm⟩⟩

theorem unsubscribe_ok_cases {t : PyKey} {mb : MailboxId} {s s' : BusState}
    (h : unsubscribe t mb s = .ok s') :
    ∃ l, dictGet? s.subscribers t = some l ∧
      ((mb ∈ l ∧
          s' = { s with subscribers := dictSet s.subscribers t (l.erase mb) }) ∨
        (mb ∉ l ∧ s' = s)) := by
  unfold unsubscribe at h
  cases hget : dictGet? s.subscribers t with
  | none => rw [hget] at h; exact absurd h (by simp)
  | some l =>
      rw [hget] at h
      by_cases hmem : mb ∈ l
      · simp [hmem] at h
        exact ⟨l, rfl, .inl ⟨hmem, h.symm⟩⟩
      · simp [hmem] at h
        exact ⟨l, rfl, .inr ⟨hmem, h.symm⟩⟩

theorem subscribe_ok_frame {t : PyKey} {mb : MailboxId} {s s' : BusState}
    (h : subscribe t mb s = .ok s') :
    s'.message_count = s.message_count ∧ s'.boxes = s.boxes ∧
      s'.name = s.name := by
  obtain ⟨l, _, hc | hc⟩ := subscribe_ok_cases h <;>
    rw [hc.2] <;> exact ⟨rfl, rfl, rfl⟩

theorem unsubscribe_ok_frame {t : PyKey} {mb : MailboxId} {s s' : BusState}
    (h : unsubscribe t mb s = .ok s') :
    s'.message_count = s.message_count ∧ s'.boxes = s.boxes ∧
      s'.name = s.name := by
  obtain ⟨l, _, hc | hc⟩ := unsubscribe_ok_cases h <;>
    rw [hc.2] <;> exact ⟨rfl, rfl, rfl⟩

theorem subscribe_error_of_none {t : PyKey} {mb : MailboxId} {s : BusState}
    (h : dictGet? s.subscribers t = none) :
    subscribe t mb s = .error .keyError := by
  unfold subscribe
  rw [h]

theorem unsubscribe_error_of_none {t : PyKey} {mb : MailboxId} {s : BusState}
    (h : dictGet? s.subscribers t = none) :
    unsubscribe t mb s = .error .keyError := by
  unfold unsubscribe
  rw [h]

/-! ## Registry invariants on reachable bus states -/

theorem keysInv_init (name : String) : KeysInv (initState name) := rfl

theorem nodupInv_init (name : String) : NodupInv (initState name) := by
  intro k l h
  have hm := dictGet?_mem h
  simp [initState, MessageType.all] at hm
  rcases hm with ⟨_, rfl⟩ | ⟨_, rfl⟩ | ⟨_, rfl⟩ | ⟨_, rfl⟩ | ⟨_, rfl⟩ <;>
    exact List.nodup_nil

theorem keysInv_subscribe {t : PyKey} {mb : MailboxId} {s s' : BusState}
    (h : subscribe t mb s = .ok s') (hk : KeysInv s) : KeysInv s' := by
  obtain ⟨l, hget, hc | hc⟩ := subscribe_ok_cases h
  · rw [hc.2]; exact hk
  · rw [hc.2]
    unfold KeysInv
    rw [map_fst_dictSet hget]
    exact hk

theorem keysInv_unsubscribe {t : PyKey} {mb : MailboxId} {s s' : BusState}
    (h : unsubscribe t mb s = .ok s') (hk : KeysInv s) : KeysInv s' := by
  obtain ⟨l, hget, hc | hc⟩ := unsubscribe_ok_cases h
  · rw [hc.2]
    unfold KeysInv
    rw [map_fst_dictSet hget]
    exact hk
  · rw [hc.2]; exact hk

theorem nodupInv_subscribe {t : PyKey} {mb : MailboxId} {s s' : BusState}
    (h : subscribe t mb s = .ok s') (hn : NodupInv s) : NodupInv s' := by
  obtain ⟨l, hget, hc | hc⟩ := subscribe_ok_cases h
  · rw [hc.2]; exact hn
  · rw [hc.2]
    intro k l' hl'
    by_cases hk : k = t
    · subst hk
      rw [dictGet?_dictSet_self] at hl'
      cases hl'
      refine List.Nodup.append (hn _ _ hget) (List.nodup_singleton mb) ?_
      intro a ha ha'
      rw [List.mem_singleton] at ha'
      subst ha'
      exact hc.1 ha
    · rw [dictGet?_dictSet_ne _ _ hk] at hl'
      exact hn _ _ hl'

theorem nodupInv_unsubscribe {t : PyKey} {mb : MailboxId} {s s' : BusState}
    (h : unsubscribe t mb s = .ok s') (hn : NodupInv s) : NodupInv s' := by
  obtain ⟨l, hget, hc | hc⟩ := unsubscribe_ok_cases h
  · rw [hc.2]
    intro k l' hl'
    by_cases hk : k = t
    · subst hk
      rw [dictGet?_dictSet_self] at hl'
      cases hl'
      exact List.Nodup.sublist (List.erase_sublist _ _) (hn _ _ hget)
    · rw [dictGet?_dictSet_ne _ _ hk] at hl'
      exact hn _ _ hl'
  · rw [hc.2]; exact hn

theorem applyOp_sub (s : BusState) (t : PyKey) (mb : MailboxId) :
    applyOp s (.sub t mb) =
      match subscribe t mb s with
      | .ok s' => s'
      | .error _ => s := rfl

theorem applyOp_unsub (s : BusState) (t : PyKey) (mb : MailboxId) :
    applyOp s (.unsub t mb) =
      match unsubscribe t mb s with
      | .ok s' => s'
      | .error _ => s := rfl

theorem applyOp_pub (s : BusState) (m : Message) :
    applyOp s (.pub m) = publish m s := rfl

theorem applyOp_stats (s : BusState) : applyOp s .stats = s := rfl

theorem keysInv_applyOp {s : BusState} (hk : KeysInv s) (op : Op) :
    KeysInv (applyOp s op) := by
  cases op with
  | sub t mb =>
      rw [applyOp_sub]
      cases hs : subscribe t mb s with
      | ok s' => exact keysInv_subscribe hs hk
      | error _ => exact hk
  | unsub t mb =>
      rw [applyOp_unsub]
      cases hs : unsubscribe t mb s with
      | ok s' => exact keysInv_unsubscribe hs hk
      | error _ => exact hk
  | pub m =>
      unfold KeysInv
      rw [applyOp_pub, publish_subscribers]
      exact hk
  | stats => exact hk

theorem nodupInv_applyOp {s : BusState} (hn : NodupInv s) (op : Op) :
    NodupInv (applyOp s op) := by
  cases op with
  | sub t mb =>
      rw [applyOp_sub]
      cases hs : subscribe t mb s with
      | ok s' => exact nodupInv_subscribe hs hn
      | error _ => exact hn
  | unsub t mb =>
      rw [applyOp_unsub]
      cases hs : unsubscribe t mb s with
      | ok s' => exact nodupInv_unsubscribe hs hn
      | error _ => exact hn
  | pub m =>
      intro k l hl
      rw [applyOp_pub, publish_subscribers] at hl
      exact hn _ _ hl
  | stats => exact hn

theorem keysInv_runOps {s : BusState} (hk : KeysInv s) (ops : List Op) :
    KeysInv (runOps s ops) := by
  induction ops generalizing s with
  | nil => exact hk
  | cons op rest ih => exact ih (keysInv_applyOp hk op)

theorem nodupInv_runOps {s : BusState} (hn : NodupInv s) (ops : List Op) :
    NodupInv (runOps s ops) := by
  induction ops generalizing s with
  | nil => exact hn
  | cons op rest ih => exact ih (nodupInv_applyOp hn op)

theorem reachable_keysInv {s : BusState} (h : Reachable s) : KeysInv s := by
  obtain ⟨name, ops, rfl⟩ := h
  exact keysInv_runOps (keysInv_init name) ops

theorem reachable_nodupInv {s : BusState} (h : Reachable s) : NodupInv s := by
  obtain ⟨name, ops, rfl⟩ := h
  exact nodupInv_runOps (nodupInv_init name) ops

/-! ## The published-message counter along operation sequences -/

theorem applyOp_message_count (s : BusState) (op : Op) :
    (applyOp s op).message_count =
      s.message_count + (if op.isPub then 1 else 0) := by
  cases op with
  | sub t mb =>
      rw [applyOp_sub]
      cases hs : subscribe t mb s with
      | ok s' => simpa [Op.isPub] using (subscribe_ok_frame hs).1
      | error _ => simp [Op.isPub]
  | unsub t mb =>
      rw [applyOp_unsub]
      cases hs : unsubscribe t mb s with
      | ok s' => simpa [Op.isPub] using (unsubscribe_ok_frame hs).1
      | error _ => simp [Op.isPub]
  | pub m => simp [applyOp_pub, publish_message_count, Op.isPub]
  | stats => simp [applyOp_stats, Op.isPub]

theorem runOps_message_count (s : BusState) (ops : List Op) :
    (runOps s ops).message_count = s.message_count + countPub ops := by
  induction ops generalizing s with
  | nil => simp [runOps, countPub]
  | cons op rest ih =>
      show (runOps (applyOp s op) rest).message_count = _
      rw [ih, applyOp_message_count]
      simp only [countPub, List.countP_cons]
      by_cases h : op.isPub <;> simp [h] <;> omega

/-! ## Subscriber-list membership across operations -/

theorem applyOp_mem_preserved {s : BusState} {op : Op} {k : PyKey}
    {l : List MailboxId} {mb : MailboxId} (hop : op.isUnsub = false)
    (hl : dictGet? s.subscribers k = some l) (hmb : mb ∈ l) :
    ∃ l', dictGet? (applyOp s op).subscribers k = some l' ∧ mb ∈ l' := by
  cases op with
  | sub t mb2 =>
      rw [applyOp_sub]
      cases hs : subscribe t mb2 s with
      | error _ => exact ⟨l, hl, hmb⟩
      | ok s' =>
          obtain ⟨l2, hget, hc | hc⟩ := subscribe_ok_cases hs
          · rw [hc.2]; exact ⟨l, hl, hmb⟩
          · rw [hc.2]
            by_cases hk : k = t
            · subst hk
              rw [hl] at hget
              cases hget
              exact ⟨l ++ [mb2], dictGet?_dictSet_self _ _ _,
                List.mem_append_left _ hmb⟩
            · exact ⟨l, by rw [dictGet?_dictSet_ne _ _ hk]; exact hl, hmb⟩
  | unsub t mb2 => simp [Op.isUnsub] at hop
  | pub m =>
      rw [applyOp_pub]
      exact ⟨l, by rw [publish_subscribers]; exact hl, hmb⟩
  | stats => exact ⟨l, hl, hmb⟩

/-! ## Publishing a sequence of messages -/

theorem publishAll_subscribers (ms : List Message) (s : BusState) :
    (publishAll ms s).subscribers = s.subscribers := by
  induction ms generalizing s with
  | nil => rfl
  | cons m rest ih =>
      show (publishAll rest (publish m s)).subscribers = _
      rw [ih, publish_subscribers]

theorem publishAll_boxes_one {s : BusState} {k : PyKey} {l : List MailboxId}
    {mb : MailboxId} (hl : dictGet? s.subscribers k = some l)
    (hc : l.count mb = 1) (ms : List Message)
    (hms : ∀ m ∈ ms, m.msg_type = k) :
    (publishAll ms s).boxes mb = s.boxes mb ++ ms := by
  induction ms generalizing s with
  | nil => simp [publishAll]
  | cons m rest ih =>
      show (publishAll rest (publish m s)).boxes mb = _
      have hl' : dictGet? (publish m s).subscribers k = some l := by
        rw [publish_subscribers]; exact hl
      rw [ih hl' (fun m' hm' => hms m' (List.mem_cons_of_mem _ hm')),
        publish_boxes, hms m (List.mem_cons_self m rest), hl]
      simp [hc]

theorem publishAll_boxes_zero {s : BusState} {k : PyKey} {l : List MailboxId}
    {mb : MailboxId} (hl : dictGet? s.subscribers k = some l)
    (hc : l.count mb = 0) (ms : List Message)
    (hms : ∀ m ∈ ms, m.msg_type = k) :
    (publishAll ms s).boxes mb = s.boxes mb := by
  induction ms generalizing s with
  | nil => rfl
  | cons m rest ih =>
      show (publishAll rest (publish m s)).boxes mb = _
      have hl' : dictGet? (publish m s).subscribers k = some l := by
        rw [publish_subscribers]; exact hl
      rw [ih hl' (fun m' hm' => hms m' (List.mem_cons_of_mem _ hm')),
        publish_boxes, hms m (List.mem_cons_self m rest), hl]
      simp [hc]

/-! ## Remaining list and dictionary helpers -/

theorem erase_append_singleton {α : Type} [DecidableEq α] {l : List α} {a : α}
    (h : a ∉ l) : (l ++ [a]).erase a = l := by
  induction l with
  | nil => simp
  | cons b rest ih =>
      rw [List.mem_cons, not_or] at h
      have hba : ¬((b == a) = true) := by
        simp only [beq_iff_eq]
        exact fun hba => h.1 hba.symm
      rw [List.cons_append, List.erase_cons, if_neg hba, ih h.2]

theorem dictSet_dictSet {α β : Type} [DecidableEq α] (d : List (α × β))
    (k : α) (v v' : β) : dictSet (dictSet d k v) k v' = dictSet d k v' := by
  induction d with
  | nil => simp [dictSet]
  | cons p rest ih =>
      obtain ⟨k0, v0⟩ := p
      by_cases hk : k = k0
      · simp [dictSet, hk]
      · simp [dictSet, hk, ih]

theorem registry_shape {d : List (PyKey × List MailboxId)}
    (h : d.map Prod.fst = MessageType.all.map PyKey.ofType) :
    ∃ l1 l2 l3 l4 l5,
      d = [(.ofType .ORDER, l1), (.ofType .PAYMENT, l2),
        (.ofType .INVENTORY, l3), (.ofType .SHIPPING, l4),
        (.ofType .NOTIFICATION, l5)] := by
  match d with
  | [] => simp [MessageType.all] at h
  | [p1] => simp [MessageType.all] at h
  | [p1, p2] => simp [MessageType.all] at h
  | [p1, p2, p3] => simp [MessageType.all] at h
  | [p1, p2, p3, p4] => simp [MessageType.all] at h
  | p1 :: p2 :: p3 :: p4 :: p5 :: rest =>
      obtain ⟨k1, l1⟩ := p1
      obtain ⟨k2, l2⟩ := p2
      obtain ⟨k3, l3⟩ := p3
      obtain ⟨k4, l4⟩ := p4
      obtain ⟨k5, l5⟩ := p5
      simp [MessageType.all] at h
      obtain ⟨rfl, rfl, rfl, rfl, rfl, hrest⟩ := h
      exact ⟨l1, l2, l3, l4, l5, by rw [hrest]⟩

/-! ## Claim theorems -/

theorem filterMap_enqueue_map (l : List MailboxId) :
    List.filterMap
      (fun st : Step =>
        match st.act with
        | .enqueue mb => some mb
        | _ => none)
      (l.map (fun mb => ⟨.enqueue mb, true⟩)) = l := by
  induction l with
  | nil => rfl
  | cons a rest ih =>
      rw [List.map_cons, List.filterMap_cons]
      simpa using ih

/-- C1: publishing a well-formed message whose type has subscriber snapshot
`l` (duplicate-free, as on every reachable state) enqueues the message
exactly once at the back of each mailbox of `l`, touches no other mailbox,
performs its enqueues in snapshot order, and returns normally, incrementing
the counter. -/
theorem C1_publish_fanout (s : BusState) (m : Message) (t : MessageType)
    (l : List MailboxId) (hm : m.msg_type = .ofType t)
    (hl : dictGet? s.subscribers (.ofType t) = some l) (hnd : l.Nodup) :
    (∀ mb ∈ l, (publish m s).boxes mb = s.boxes mb ++ [m])
    ∧ (∀ mb, mb ∉ l → (publish m s).boxes mb = s.boxes mb)
    ∧ enqueueTargets (publishSteps m s) = l
    ∧ (publish m s).message_count = s.message_count + 1 := by
  refine ⟨?_, ?_, ?_, publish_message_count m s⟩
  · intro mb hmb
    rw [publish_boxes, hm, hl]
    simp [List.count_eq_one_of_mem hnd hmb]
  · intro mb hmb
    rw [publish_boxes, hm, hl]
    simp [List.count_eq_zero_of_not_mem hmb]
  · rw [publishSteps, hm, hl]
    simp only [enqueueTargets, List.filterMap_cons]
    exact filterMap_enqueue_map l

theorem C1_publish_fanout_witness :
    (publish msgW busW).boxes 0 = busW.boxes 0 ++ [msgW]
    ∧ (publish msgW busW).boxes 5 = busW.boxes 5 := by
  have h := C1_publish_fanout busW msgW .ORDER [0, 1] rfl rfl (by decide)
  exact ⟨h.1 0 (by decide), h.2.1 5 (by decide)⟩

/-- C2: for a sequence of publishes of a fixed type, every mailbox that is
subscribed to that type throughout receives exactly those messages, appended
in publish order, and draining the mailbox by repeated `get` returns its
contents in exactly the order they were put (FIFO). -/
theorem C2_per_type_order (s : BusState) (t : MessageType) (ms : List Message)
    (mb : MailboxId) (l : List MailboxId)
    (hms : ∀ m ∈ ms, m.msg_type = .ofType t)
    (hl : dictGet? s.subscribers (.ofType t) = some l)
    (hmb : mb ∈ l) (hnd : l.Nodup) :
    (publishAll ms s).boxes mb = s.boxes mb ++ ms
    ∧ drain ((publishAll ms s).boxes mb) = s.boxes mb ++ ms := by
  have h1 := publishAll_boxes_one hl (List.count_eq_one_of_mem hnd hmb) ms hms
  exact ⟨h1, by rw [drain_eq, h1]⟩

theorem C2_per_type_order_witness :
    (publishAll [msgW, msgW2] busW).boxes 1 = busW.boxes 1 ++ [msgW, msgW2]
    ∧ drain ((publishAll [msgW, msgW2] busW).boxes 1)
        = busW.boxes 1 ++ [msgW, msgW2] :=
  C2_per_type_order busW .ORDER [msgW, msgW2] 1 [0, 1]
    (by decide) rfl (by decide) (by decide)

/-- C3 counterexample: two bus states that differ in `publishedCount` have
identical `get_stats()` output, so the value returned by `get_stats` cannot
contain (and so does not return) the total published count the claim
asserts it returns. -/
theorem C3_stats_cex :
    get_stats (publish msgW (initState "demo")) = get_stats (initState "demo")
    ∧ (publish msgW (initState "demo")).message_count
        ≠ (initState "demo").message_count := by
  constructor
  · rfl
  · intro h
    rw [publish_message_count] at h
    simp [initState] at h

/-- C3 (amended): `get_stats` returns, for each `MessageType` in enum order
and keyed by its display label, the current number of subscribed mailboxes
for that type, all read from the one registry; it does not include
`publishedCount`, which is a separate field of the bus. -/
theorem C3_stats_per_type (s : BusState) (hs : Reachable s) :
    get_stats s = MessageType.all.map
      (fun t => (t.value,
        ((dictGet? s.subscribers (.ofType t)).getD []).length)) := by
  obtain ⟨l1, l2, l3, l4, l5, hd⟩ := registry_shape (reachable_keysInv hs)
  rw [get_stats, hd]
  simp [MessageType.all, dictGet?, PyKey.label]

theorem C3_stats_per_type_witness :
    get_stats (initState "demo") = MessageType.all.map
      (fun t => (t.value,
        ((dictGet? (initState "demo").subscribers (.ofType t)).getD
          []).length)) :=
  C3_stats_per_type (initState "demo") ⟨"demo", [], rfl⟩

/-- C4 counterexample: publishing a message whose `msg_type` is not a member
of the enum neither fails nor leaves the bus unchanged: the call returns
normally and increments `publishedCount` (the registry lookup uses
`.get(..., [])` and silently dispatches to nobody). -/
theorem C4_invalid_type_cex :
    publish badMsg (initState "demo") ≠ initState "demo"
    ∧ (publish badMsg (initState "demo")).message_count
        = (initState "demo").message_count + 1 := by
  constructor
  · intro h
    have hc := congrArg BusState.message_count h
    rw [publish_message_count] at hc
    simp [initState] at hc
  · exact publish_message_count _ _

/-- C4 (amended): `subscribe` and `unsubscribe` with a key absent from the
registry (any non-member of the enum, since the registry is pre-populated
with exactly the enum members) raise `KeyError` and leave the bus unchanged;
`publish` of a message with such a type does not fail and is not ignored:
it increments `publishedCount` and enqueues into no mailbox. -/
theorem C4_invalid_type_behavior :
    (∀ (s : BusState) (k : PyKey) (mb : MailboxId),
        dictGet? s.subscribers k = none →
          subscribe k mb s = .error .keyError
          ∧ unsubscribe k mb s = .error .keyError
          ∧ applyOp s (.sub k mb) = s
          ∧ applyOp s (.unsub k mb) = s)
    ∧ (∀ (s : BusState) (m : Message),
        dictGet? s.subscribers m.msg_type = none →
          publish m s = { s with message_count := s.message_count + 1 }) := by
  constructor
  · intro s k mb h
    refine ⟨subscribe_error_of_none h, unsubscribe_error_of_none h, ?_, ?_⟩
    · rw [applyOp_sub, subscribe_error_of_none h]
    · rw [applyOp_unsub, unsubscribe_error_of_none h]
  · intro s m h
    unfold publish
    rw [h]
    rfl

theorem C4_invalid_type_behavior_witness :
    subscribe (.other 0) 7 (initState "demo") = .error .keyError
    ∧ publish badMsg (initState "demo")
        = { initState "demo" with
            message_count := (initState "demo").message_count + 1 } :=
  ⟨(C4_invalid_type_behavior.1 (initState "demo") (.other 0) 7 rfl).1,
    C4_invalid_type_behavior.2 (initState "demo") badMsg rfl⟩

/-- C5: the counter after running any operation sequence on a fresh bus is
exactly the number of `publish` calls in the sequence; each `publish`
increments it by one and no other operation changes it. -/
theorem C5_count_equals_publishes :
    (∀ (name : String) (ops : List Op),
        (runOps (initState name) ops).message_count = countPub ops)
    ∧ (∀ (s : BusState) (m : Message),
        (applyOp s (.pub m)).message_count = s.message_count + 1)
    ∧ (∀ (s : BusState) (op : Op), op.isPub = false →
        (applyOp s op).message_count = s.message_count) := by
  refine ⟨?_, ?_, ?_⟩
  · intro name ops
    rw [runOps_message_count]
    simp [initState]
  · intro s m
    rw [applyOp_pub, publish_message_count]
  · intro s op h
    rw [applyOp_message_count, h]
    simp

theorem C5_count_equals_publishes_witness :
    (runOps (initState "demo") [.pub msgW, .stats, .pub msgW2]).message_count
      = countPub [.pub msgW, .stats, .pub msgW2]
    ∧ (applyOp busW .stats).message_count = busW.message_count :=
  ⟨C5_count_equals_publishes.1 "demo" [.pub msgW, .stats, .pub msgW2],
    C5_count_equals_publishes.2.2 busW .stats rfl⟩

/-- C6: on every reachable state each subscriber list is duplicate-free;
subscribing an already-listed mailbox is a state no-op; no operation other
than `unsubscribe` removes a listed mailbox; and a mailbox subscribed a
second time to the same type still receives exactly one copy when a message
of that type is published. -/
theorem C6_registry_invariant :
    (∀ s : BusState, Reachable s →
        ∀ (k : PyKey) (l : List MailboxId),
          dictGet? s.subscribers k = some l → l.Nodup)
    ∧ (∀ (s : BusState) (k : PyKey) (mb : MailboxId) (l : List MailboxId),
        dictGet? s.subscribers k = some l → mb ∈ l →
          subscribe k mb s = .ok s)
    ∧ (∀ (s : BusState) (op : Op) (k : PyKey) (l : List MailboxId)
        (mb : MailboxId), op.isUnsub = false →
          dictGet? s.subscribers k = some l → mb ∈ l →
          ∃ l', dictGet? (applyOp s op).subscribers k = some l' ∧ mb ∈ l')
    ∧ (∀ (s : BusState) (t : MessageType) (mb : MailboxId)
        (l : List MailboxId) (m : Message),
        dictGet? s.subscribers (.ofType t) = some l → mb ∈ l → l.Nodup →
        m.msg_type = .ofType t →
          (publish m (applyOp s (.sub (.ofType t) mb))).boxes mb
            = s.boxes mb ++ [m]) := by
  refine ⟨fun s hs => reachable_nodupInv hs, ?_, ?_, ?_⟩
  · intro s k mb l hl hmb
    simp [subscribe, hl, hmb]
  · intro s op k l mb hop hl hmb
    exact applyOp_mem_preserved hop hl hmb
  · intro s t mb l m hl hmb hnd hm
    have hsub : subscribe (.ofType t) mb s = .ok s := by
      simp [subscribe, hl, hmb]
    have happ : applyOp s (.sub (.ofType t) mb) = s := by
      rw [applyOp_sub, hsub]
    rw [happ, publish_boxes, hm, hl]
    simp [List.count_eq_one_of_mem hnd hmb]

theorem C6_registry_invariant_witness :
    ((initState "demo").subscribers.map Prod.fst).Nodup
    ∧ subscribe (.ofType .ORDER) 0 busW = .ok busW
    ∧ (publish msgW (applyOp busW (.sub (.ofType .ORDER) 0))).boxes 0
        = busW.boxes 0 ++ [msgW] := by
  refine ⟨by decide, ?_, ?_⟩
  · exact C6_registry_invariant.2.1 busW (.ofType .ORDER) 0 [0, 1] rfl
      (by decide)
  · exact C6_registry_invariant.2.2.2 busW .ORDER 0 [0, 1] msgW rfl
      (by decide) (by decide) rfl

/-- C7: `unsubscribe` on a type whose (duplicate-free) list contains the
mailbox removes it and returns normally, after which the mailbox is no
longer listed and no sequence of publishes of that type enqueues anything
into it; `unsubscribe` when the mailbox is absent is a no-op, not an
error. -/
theorem C7_unsubscribe_semantics (s : BusState) (t : MessageType)
    (mb : MailboxId) (l : List MailboxId)
    (hl : dictGet? s.subscribers (.ofType t) = some l) (hnd : l.Nodup) :
    (mb ∉ l → unsubscribe (.ofType t) mb s = .ok s)
    ∧ (mb ∈ l →
        unsubscribe (.ofType t) mb s = .ok { s with
          subscribers := dictSet s.subscribers (.ofType t) (l.erase mb) }
        ∧ dictGet? (dictSet s.subscribers (.ofType t) (l.erase mb))
            (.ofType t) = some (l.erase mb)
        ∧ mb ∉ l.erase mb
        ∧ ∀ ms : List Message, (∀ m ∈ ms, m.msg_type = .ofType t) →
            (publishAll ms { s with
              subscribers := dictSet s.subscribers (.ofType t)
                (l.erase mb) }).boxes mb = s.boxes mb) := by
  constructor
  · intro hmb
    simp [unsubscribe, hl, hmb]
  · intro hmb
    have hnotin : mb ∉ l.erase mb := fun hin =>
      ((List.Nodup.mem_erase_iff hnd).mp hin).1 rfl
    refine ⟨by simp [unsubscribe, hl, hmb], dictGet?_dictSet_self _ _ _,
      hnotin, ?_⟩
    intro ms hms
    exact publishAll_boxes_zero (dictGet?_dictSet_self _ _ _)
      (List.count_eq_zero_of_not_mem hnotin) ms hms

theorem C7_unsubscribe_semantics_witness :
    unsubscribe (.ofType .ORDER) 9 busW = .ok busW
    ∧ unsubscribe (.ofType .ORDER) 0 busW = .ok busW1
    ∧ dictGet? busW1.subscribers (.ofType .ORDER) = some [1]
    ∧ (publishAll [msgW] busW1).boxes 0 = busW1.boxes 0 :=
  ⟨(C7_unsubscribe_semantics busW .ORDER 9 [0, 1] rfl (by decide)).1
      (by decide),
    ((C7_unsubscribe_semantics busW .ORDER 0 [0, 1] rfl (by decide)).2
      (by decide)).1,
    ((C7_unsubscribe_semantics busW .ORDER 0 [0, 1] rfl (by decide)).2
      (by decide)).2.1,
    ((C7_unsubscribe_semantics busW .ORDER 0 [0, 1] rfl (by decide)).2
      (by decide)).2.2.2 [msgW] (by decide)⟩

/-- C8: frame property — `subscribe`, `unsubscribe` and `get_stats` change
no mailbox contents (`get_stats` does not change the state at all), and
`publish` only appends to mailboxes: every mailbox keeps its pre-existing
contents as a prefix, and a mailbox not in the snapshot for the message's
type is untouched. -/
theorem C8_bus_never_drains :
    (∀ (s : BusState) (k : PyKey) (mb : MailboxId) (s' : BusState),
        subscribe k mb s = .ok s' → s'.boxes = s.boxes)
    ∧ (∀ (s : BusState) (k : PyKey) (mb : MailboxId) (s' : BusState),
        unsubscribe k mb s = .ok s' → s'.boxes = s.boxes)
    ∧ (∀ s : BusState, applyOp s .stats = s)
    ∧ (∀ (s : BusState) (m : Message) (mb : MailboxId),
        (publish m s).boxes mb = s.boxes mb ++ List.replicate
          (((dictGet? s.subscribers m.msg_type).getD []).count mb) m)
    ∧ (∀ (s : BusState) (m : Message) (mb : MailboxId),
        mb ∉ (dictGet? s.subscribers m.msg_type).getD [] →
          (publish m s).boxes mb = s.boxes mb) := by
  refine ⟨?_, ?_, fun s => rfl, fun s m mb => publish_boxes m s mb, ?_⟩
  · intro s k mb s' h
    exact (subscribe_ok_frame h).2.1
  · intro s k mb s' h
    exact (unsubscribe_ok_frame h).2.1
  · intro s m mb hmb
    rw [publish_boxes]
    simp [List.count_eq_zero_of_not_mem hmb]

theorem C8_bus_never_drains_witness :
    busW3.boxes = busW.boxes
    ∧ (publish msgW busW).boxes 7 = busW.boxes 7 :=
  ⟨C8_bus_never_drains.1 busW (.ofType .PAYMENT) 3 busW3 rfl,
    C8_bus_never_drains.2.2.2.2 busW msgW 7 (by decide)⟩

/-- C9 counterexample: in the source the enqueue loop sits inside the
`with self.lock:` block, so at a concrete state with one ORDER subscriber
the enqueue step of `publish` is performed while the registry lock is held,
contradicting the claim that dispatch happens without the lock. -/
theorem C9_dispatch_unlocked_cex :
    ¬ (∀ st ∈ publishSteps msgW busW,
        st.isEnqueue = true → st.lockHeld = false) := by
  decide

/-- C9 (amended): the whole body of `publish` — the counter increment, the
registry snapshot, the log lines and every mailbox enqueue — executes while
holding `self.lock`: `publish` is one single critical section, so a publish
blocked on a full mailbox also blocks all other bus operations. -/
theorem C9_publish_single_critical_section (m : Message) (s : BusState) :
    ∀ st ∈ publishSteps m s, st.lockHeld = true := by
  intro st hst
  simp only [publishSteps, List.mem_cons, List.mem_map] at hst
  rcases hst with rfl | rfl | rfl | rfl | ⟨mb, _, rfl⟩ <;> rfl

theorem C9_publish_single_critical_section_witness :
    Step.lockHeld ⟨.incCount, true⟩ = true :=
  C9_publish_single_critical_section msgW busW ⟨.incCount, true⟩ (by decide)

/-- C10: subscribing a mailbox not currently listed for a key and then
unsubscribing it restores the exact original bus state (the appended entry
is removed again; every other type's list, the counter and all mailboxes
are untouched). -/
theorem C10_subscribe_unsubscribe_roundtrip (s : BusState) (t : PyKey)
    (mb : MailboxId) (l : List MailboxId)
    (hl : dictGet? s.subscribers t = some l) (hmb : mb ∉ l) :
    subscribe t mb s = .ok { s with
      subscribers := dictSet s.subscribers t (l ++ [mb]) }
    ∧ unsubscribe t mb { s with
        subscribers := dictSet s.subscribers t (l ++ [mb]) } = .ok s := by
  constructor
  · simp [subscribe, hl, hmb]
  · have hget1 : dictGet? (dictSet s.subscribers t (l ++ [mb])) t
        = some (l ++ [mb]) := dictGet?_dictSet_self _ _ _
    have hmem : mb ∈ l ++ [mb] :=
      List.mem_append_right _ (List.mem_singleton_self mb)
    simp only [unsubscribe, hget1, if_pos hmem]
    rw [erase_append_singleton hmb, dictSet_dictSet, dictSet_self hl]

theorem C10_subscribe_unsubscribe_roundtrip_witness :
    subscribe (.ofType .PAYMENT) 3 busW = .ok busW3
    ∧ unsubscribe (.ofType .PAYMENT) 3 busW3 = .ok busW :=
  C10_subscribe_unsubscribe_roundtrip busW (.ofType .PAYMENT) 3 []
    rfl (by decide)
